import Mathlib

/-!
Shallow embedding of the swing-trade basket generator backend
(`backend/app/services/*.py` together with the data model in
`backend/app/models.py`).  Python floats are modelled as rationals and
Python `int(x)` (truncation toward zero) as `pytrunc`.  Stateful pieces
(the market-data cache) are modelled by explicit state passing; the
upstream quote provider and the wall clock are explicit parameters.
-/

namespace SwingTrade

/-- Python `int(x)` applied to a float: truncation toward zero. -/
def pytrunc (q : ℚ) : ℤ := if 0 ≤ q then ⌊q⌋ else -⌊-q⌋

/-- Model of `models.TradeInput` (pydantic): prices are floats, the model
validators additionally guarantee `entry_price > 0`, `stop_loss < entry_price`
and `target > entry_price`; those invariants appear as hypotheses where
needed. -/
structure TradeInput where
  ticker : String
  entry_price : ℚ
  stop_loss : ℚ
  target : ℚ
deriving Repr, DecidableEq

/-- Model of `models.Client`. -/
structure Client where
  account_number : String
  equity_advisor : String
  advisor : String
  client_name : String
  strategy : String
  net_total : ℚ
  net_available : ℚ
  average_operation_value : ℚ
deriving Repr, DecidableEq

/-- Diagnostic messages produced by `TradeValidator.validate_trade`; each
constructor stands for one of the f-strings of the source together with the
numeric payload interpolated into it. -/
inductive ValMsg where
  | noData (ticker : String)
  | liqFail (liq : ℚ)
  | liqOk (liq : ℚ)
  | stopFail (p : ℚ)
  | stopOk (p : ℚ)
  | rrFail (r : ℚ)
  | rrOk (r : ℚ)
  | maxQty (q : ℤ)
  | approved (ticker : String)
  | rejected (ticker : String)
deriving Repr, DecidableEq

/-- Model of `models.TechnicalValidation`. -/
structure TechnicalValidation where
  valid : Bool
  daily_liquidity : ℚ
  stop_loss_percent : ℚ
  risk_reward_ratio : ℚ
  max_quantity : ℤ
  messages : List ValMsg
deriving Repr, DecidableEq

/-- Model of `models.ClientOrder` with the same field defaults as the
pydantic model. -/
structure ClientOrder where
  account_number : String
  push_validity : String := "hoje"
  order_validity : String := "hoje"
  ticker : String
  strategy : String := "position"
  direction : String := "compra"
  quantity : ℤ
  apparent_quantity : String := ""
  minimum_quantity : String := ""
  price_type : String
  limit_price : ℚ
  trigger_type : String := ""
  upper_trigger_price : String := ""
  upper_limit_price : String := ""
  lower_trigger_price : String := ""
  lower_limit_price : String := ""
  client_name : Option String := none
  invested_amount : Option ℚ := none
deriving Repr, DecidableEq

/-! ### BasketCalculator (`services/basket_calculator.py`) -/

/-- `BasketCalculator.MIN_NET_TOTAL`. -/
def MIN_NET_TOTAL : ℚ := 20000

/-- `BasketCalculator.CAPITAL_PERCENT_PER_OPERATION`. -/
def CAPITAL_PERCENT_PER_OPERATION : ℚ := 1/2

/-- Diagnostic messages produced by `filter_eligible_clients`, one
constructor per f-string of the source. -/
inductive FilterMsg where
  | insufficientTotal (clientName accountNumber : String) (netTotal : ℚ)
  | insufficientBalance (clientName accountNumber : String) (netAvailable required : ℚ)
  | eligibleOk (clientName accountNumber : String) (required : ℚ)
deriving Repr, DecidableEq

/-- `BasketCalculator.filter_eligible_clients`: walks the client list in
order, appending one message per client and collecting the eligible ones. -/
def filter_eligible_clients : List Client → List Client × List FilterMsg
  | [] => ([], [])
  | client :: rest =>
    let (eligible, messages) := filter_eligible_clients rest
    if client.net_total < MIN_NET_TOTAL then
      (eligible,
        FilterMsg.insufficientTotal client.client_name client.account_number
          client.net_total :: messages)
    else
      let required_amount := client.net_total * CAPITAL_PERCENT_PER_OPERATION
      if client.net_available < required_amount then
        (eligible,
          FilterMsg.insufficientBalance client.client_name client.account_number
            client.net_available required_amount :: messages)
      else
        (client :: eligible,
          FilterMsg.eligibleOk client.client_name client.account_number
            required_amount :: messages)

/-- `BasketCalculator.calculate_share_quantity`. -/
def calculate_share_quantity (client : Client) (entry_price : ℚ)
    (max_quantity : ℤ) : ℤ × ℚ :=
  let available_capital := client.net_total * CAPITAL_PERCENT_PER_OPERATION
  let ideal_quantity := pytrunc (available_capital / entry_price)
  let final_quantity := min ideal_quantity max_quantity
  let invested_amount := (final_quantity : ℚ) * entry_price
  if client.net_available < invested_amount then
    let clamped := pytrunc (client.net_available / entry_price)
    (clamped, (clamped : ℚ) * entry_price)
  else
    (final_quantity, invested_amount)

/-- `BasketCalculator.generate_basket`: one order per client whose computed
quantity is nonzero, in client order. -/
def generate_basket (trade : TradeInput) (clients : List Client)
    (validation : TechnicalValidation) : List ClientOrder :=
  match clients with
  | [] => []
  | client :: rest =>
    let qi := calculate_share_quantity client trade.entry_price validation.max_quantity
    let restOrders := generate_basket trade rest validation
    if qi.1 = 0 then restOrders
    else
      { account_number := client.account_number
        ticker := trade.ticker
        quantity := qi.1
        price_type := "l"
        limit_price := trade.entry_price
        client_name := some client.client_name
        invested_amount := some qi.2 } :: restOrders

/-- Result dictionary of `BasketCalculator.calculate_summary`. -/
structure SummaryStats where
  total_orders : ℕ
  total_shares : ℤ
  total_invested : ℚ
  average_investment : ℚ
  min_investment : ℚ
  max_investment : ℚ
deriving Repr, DecidableEq

/-- The list comprehension `[o.invested_amount for o in orders if o.invested_amount]`:
Python truthiness keeps an amount iff it is not `None` and not `0.0`. -/
def truthyAmounts (orders : List ClientOrder) : List ℚ :=
  (orders.filterMap ClientOrder.invested_amount).filter (fun a => a ≠ 0)

/-- `BasketCalculator.calculate_summary`.  When the order list is nonempty
but every invested amount is falsy the source divides by `len(amounts) = 0`
(and calls `min`/`max` on an empty list), raising; this is modelled as
`none`. -/
def calculate_summary (orders : List ClientOrder) : Option SummaryStats :=
  if orders.isEmpty then
    some { total_orders := 0, total_shares := 0, total_invested := 0
           average_investment := 0, min_investment := 0, max_investment := 0 }
  else
    match truthyAmounts orders with
    | [] => none
    | a :: rest =>
      some { total_orders := orders.length
             total_shares := (orders.map ClientOrder.quantity).sum
             total_invested := (a :: rest).sum
             average_investment := (a :: rest).sum / ((a :: rest).length : ℚ)
             min_investment := rest.foldl min a
             max_investment := rest.foldl max a }

/-! ### TradeValidator (`services/trade_validador.py`) -/

/-- `TradeValidator.MIN_LIQUIDITY`. -/
def MIN_LIQUIDITY : ℚ := 30000000

/-- `TradeValidator.MAX_STOP_LOSS`. -/
def MAX_STOP_LOSS : ℚ := 8/100

/-- `TradeValidator.MIN_RISK_REWARD`. -/
def MIN_RISK_REWARD : ℚ := 133/100

/-- `TradeValidator.MAX_VOLUME_PERCENT`. -/
def MAX_VOLUME_PERCENT : ℚ := 1/100

/-- The fields of the market-data dictionary consumed by the validator
(`market_data['daily_liquidity']` and `market_data['average_daily_volume']`)
together with the rest of the dictionary built by `get_ticker_data`. -/
structure MarketData where
  ticker : String
  ticker_b3 : String
  current_price : ℚ
  average_daily_volume : ℚ
  daily_liquidity : ℚ
  open_price : ℚ
  high_price : ℚ
  low_price : ℚ
  change_percent : ℚ
  company_name : String
  sector : String
deriving Repr, DecidableEq

/-- `TradeValidator.validate_trade`.  The call to
`self.market_service.get_ticker_data` is externalized: its result is the
`market_data` argument. -/
def validate_trade (trade : TradeInput) (market_data : Option MarketData) :
    TechnicalValidation :=
  match market_data with
  | none =>
    { valid := false
      daily_liquidity := 0
      stop_loss_percent := 0
      risk_reward_ratio := 0
      max_quantity := 0
      messages := [ValMsg.noData trade.ticker] }
  | some md =>
    let daily_liquidity := md.daily_liquidity
    let avg_volume := md.average_daily_volume
    let pass1 : Bool := ! decide (daily_liquidity < MIN_LIQUIDITY)
    let m1 := if daily_liquidity < MIN_LIQUIDITY then ValMsg.liqFail daily_liquidity
              else ValMsg.liqOk daily_liquidity
    let stop_loss_percent := |(trade.stop_loss - trade.entry_price) / trade.entry_price|
    let pass2 : Bool := ! decide (MAX_STOP_LOSS < stop_loss_percent)
    let m2 := if MAX_STOP_LOSS < stop_loss_percent then ValMsg.stopFail stop_loss_percent
              else ValMsg.stopOk stop_loss_percent
    let risk := |trade.entry_price - trade.stop_loss|
    let reward := |trade.target - trade.entry_price|
    let risk_reward_ratio := if 0 < risk then reward / risk else 0
    let pass3 : Bool := ! decide (risk_reward_ratio < MIN_RISK_REWARD)
    let m3 := if risk_reward_ratio < MIN_RISK_REWARD then ValMsg.rrFail risk_reward_ratio
              else ValMsg.rrOk risk_reward_ratio
    let max_quantity := pytrunc (avg_volume * MAX_VOLUME_PERCENT)
    let valid := pass1 && pass2 && pass3
    let verdict := if valid then ValMsg.approved trade.ticker else ValMsg.rejected trade.ticker
    { valid := valid
      daily_liquidity := daily_liquidity
      stop_loss_percent := stop_loss_percent
      risk_reward_ratio := risk_reward_ratio
      max_quantity := max_quantity
      messages := [verdict, m1, m2, m3, ValMsg.maxQty max_quantity] }

/-! ### MarketDataService (`services/market_data.py`) -/

/-- Boolean substring containment on character lists, the model of the
Python `in` operator on strings. -/
def hasSubstr (needle : List Char) : List Char → Bool
  | [] => needle.isEmpty
  | c :: rest => needle.isPrefixOf (c :: rest) || hasSubstr needle rest

/-- Python `str.upper()` restricted to the character-wise ASCII case map. -/
def pyUpper (s : String) : String := String.mk (s.data.map Char.toUpper)

/-- The ticker normalization of `get_ticker_data`:
`ticker if '.SA' in ticker.upper() else f"{ticker}.SA"`. -/
def normalize_ticker (ticker : String) : String :=
  if hasSubstr ".SA".data (pyUpper ticker).data then ticker else ticker ++ ".SA"

/-- One row of the 30-day history returned by the quote provider. -/
structure Bar where
  openPrice : ℚ
  highPrice : ℚ
  lowPrice : ℚ
  closePrice : ℚ
  volume : ℚ
deriving Repr, DecidableEq

/-- Mean of a list of rationals, `series.mean()`. -/
def listMean (xs : List ℚ) : ℚ := xs.sum / (xs.length : ℚ)

/-- The dictionary built by `get_ticker_data` on a successful fetch, from
the trailing history (chronological order) and the `longName`/`sector`
entries of `stock.info`. -/
def computeMarketData (ticker ticker_b3 : String) (hist : List Bar)
    (longName sector : Option String) : MarketData :=
  let tail20 := hist.drop (hist.length - 20)
  let avg_volume := listMean (tail20.map Bar.volume)
  let avg_price := listMean (tail20.map Bar.closePrice)
  let daily_liquidity := avg_volume * avg_price
  let closes := (hist.map Bar.closePrice).reverse
  let current_price := closes.headD 0
  { ticker := ticker
    ticker_b3 := ticker_b3
    current_price := current_price
    average_daily_volume := avg_volume
    daily_liquidity := daily_liquidity
    open_price := (hist.map Bar.openPrice).reverse.headD 0
    high_price := (hist.map Bar.highPrice).reverse.headD 0
    low_price := (hist.map Bar.lowPrice).reverse.headD 0
    change_percent :=
      if 1 < hist.length then ((current_price / (closes.drop 1).headD 0) - 1) * 100 else 0
    company_name := longName.getD ticker
    sector := sector.getD "N/A" }

/-- The process-wide cache `self.cache`, a dictionary keyed by normalized
ticker; the stored `(data, None)` tuple is modelled by its data part. -/
abbrev Cache := List (String × MarketData)

/-- `MarketDataService.get_ticker_data` as an explicit state transformer on
the cache.  The yfinance call is externalized: `hist` is the fetched 30-day
history (empty when the provider has no data) and `longName`/`sector` the
relevant `stock.info` entries. -/
def get_ticker_data (cache : Cache) (ticker : String) (hist : List Bar)
    (longName sector : Option String) : Option MarketData × Cache :=
  let ticker_b3 := normalize_ticker ticker
  match cache.lookup ticker_b3 with
  | some cached => (some cached, cache)
  | none =>
    if hist.isEmpty then (none, cache)
    else
      let data := computeMarketData ticker ticker_b3 hist longName sector
      (some data, (ticker_b3, data) :: cache)

/-! ### ExcelGenerator (`services/excel_generator.py`) -/

/-- A spreadsheet cell: the values put into the row dictionaries are
strings, the integer quantity, or the float limit price. -/
inductive Cell where
  | s (v : String)
  | i (v : ℤ)
  | q (v : ℚ)
deriving Repr, DecidableEq

/-- `ExcelGenerator.COLUMNS`, the 16 brokerage-mandated column names in
their fixed order. -/
def COLUMNS : List String :=
  ["NUMERO_CONTA", "VALIDADE_PUSH", "VALIDADE_ORDEM", "ATIVO", "ESTRATEGIA",
   "DIRECAO", "QUANTIDADE", "QUANTIDADE_APARENTE", "QUANTIDADE_MINIMA",
   "TIPO_PRECO", "PRECO_LIMITE", "TIPO_DISPARO", "PRECO_DISPARO_CIMA",
   "PRECO_LIMITE_CIMA", "PRECO_DISPARO_BAIXO", "PRECO_LIMITE_BAIXO"]

/-- `ExcelGenerator.order_to_dict` laid out along `COLUMNS`: the row the
DataFrame writes for one order.  The `fillna` pass of `generate_excel` is
the identity here because the seven optional fields are total strings and
never the null marker. -/
def order_to_row (o : ClientOrder) : List Cell :=
  [Cell.s o.account_number, Cell.s o.push_validity, Cell.s o.order_validity,
   Cell.s o.ticker, Cell.s o.strategy, Cell.s o.direction, Cell.i o.quantity,
   Cell.s o.apparent_quantity, Cell.s o.minimum_quantity, Cell.s o.price_type,
   Cell.q o.limit_price, Cell.s o.trigger_type, Cell.s o.upper_trigger_price,
   Cell.s o.upper_limit_price, Cell.s o.lower_trigger_price,
   Cell.s o.lower_limit_price]

/-- The `datetime.now()` value, split into the fields `strftime` prints. -/
structure PyDateTime where
  year : ℕ
  month : ℕ
  day : ℕ
  hour : ℕ
  minute : ℕ
  second : ℕ
deriving Repr, DecidableEq

/-- Zero-padded decimal digit characters. -/
def digitChar (n : ℕ) : Char := Char.ofNat (48 + n % 10)

/-- `datetime.strftime("%Y%m%d_%H%M%S")`: four digits of the year, two each
of month and day, an underscore, then two digits each of hour, minute and
second. -/
def strftimeYmdHMS (t : PyDateTime) : String :=
  String.mk
    [digitChar (t.year / 1000), digitChar (t.year / 100), digitChar (t.year / 10),
     digitChar t.year, digitChar (t.month / 10), digitChar t.month,
     digitChar (t.day / 10), digitChar t.day, '_',
     digitChar (t.hour / 10), digitChar t.hour,
     digitChar (t.minute / 10), digitChar t.minute,
     digitChar (t.second / 10), digitChar t.second]

/-- The written spreadsheet: its file name, header row and data rows. -/
structure ExcelFile where
  filename : String
  header : List String
  rows : List (List Cell)
deriving Repr, DecidableEq

/-- `ExcelGenerator.generate_excel` with the wall clock (`datetime.now()`)
passed explicitly; the `ValueError` raised on an empty order list becomes
`Except.error`.  The output directory prefix of the returned path is
omitted: the name is the part the spec constrains. -/
def generate_excel (orders : List ClientOrder) (ticker : String)
    (now : PyDateTime) : Except String ExcelFile :=
  if orders.isEmpty then Except.error "Cannot generate Excel: no orders provided"
  else
    Except.ok
      { filename := "basket_" ++ ticker ++ "_" ++ strftimeYmdHMS now ++ ".xlsx"
        header := COLUMNS
        rows := orders.map order_to_row }

/-- Eligibility as checked by `filter_eligible_clients`, read off the two
guard conditions. -/
def isEligible (c : Client) : Bool :=
  decide (MIN_NET_TOTAL ≤ c.net_total) &&
    decide (c.net_total * CAPITAL_PERCENT_PER_OPERATION ≤ c.net_available)

/-- The diagnostic line `filter_eligible_clients` emits for one client. -/
def filterMsgFor (c : Client) : FilterMsg :=
  if c.net_total < MIN_NET_TOTAL then
    FilterMsg.insufficientTotal c.client_name c.account_number c.net_total
  else if c.net_available < c.net_total * CAPITAL_PERCENT_PER_OPERATION then
    FilterMsg.insufficientBalance c.client_name c.account_number c.net_available
      (c.net_total * CAPITAL_PERCENT_PER_OPERATION)
  else
    FilterMsg.eligibleOk c.client_name c.account_number
      (c.net_total * CAPITAL_PERCENT_PER_OPERATION)

end SwingTrade

namespace SwingTrade

theorem pytrunc_of_nonneg {q : ℚ} (h : 0 ≤ q) : pytrunc q = ⌊q⌋ := if_pos h

theorem pytrunc_nonneg {q : ℚ} (h : 0 ≤ q) : 0 ≤ pytrunc q := by
  rw [pytrunc_of_nonneg h]; exact Int.floor_nonneg.mpr h

theorem floor_div_mul_le (a : ℚ) {e : ℚ} (he : 0 < e) : (⌊a / e⌋ : ℚ) * e ≤ a := by
  have h1 : (⌊a / e⌋ : ℚ) ≤ a / e := Int.floor_le _
  calc (⌊a / e⌋ : ℚ) * e ≤ (a / e) * e := by
        exact mul_le_mul_of_nonneg_right h1 he.le
    _ = a := div_mul_cancel₀ a he.ne'

/-- C5: when the market snapshot is absent, `validate_trade` returns an
invalid result with all four numeric fields zero and exactly one
diagnostic, the data-unavailable message, without evaluating the four
rules. -/
theorem validate_trade_no_data (trade : TradeInput) :
    validate_trade trade none =
      { valid := false
        daily_liquidity := 0
        stop_loss_percent := 0
        risk_reward_ratio := 0
        max_quantity := 0
        messages := [ValMsg.noData trade.ticker] } ∧
    (validate_trade trade none).messages.length = 1 := ⟨rfl, rfl⟩

/-- C3: `filter_eligible_clients` keeps exactly the clients with net total
at least 20000 and net available at least half the net total, and emits one
diagnostic per input client, in input order. -/
theorem filter_eligible_clients_spec (clients : List Client) :
    (filter_eligible_clients clients).1 = clients.filter isEligible ∧
    (filter_eligible_clients clients).2 = clients.map filterMsgFor ∧
    (filter_eligible_clients clients).2.length = clients.length := by
  have main : (filter_eligible_clients clients).1 = clients.filter isEligible ∧
      (filter_eligible_clients clients).2 = clients.map filterMsgFor := by
    induction clients with
    | nil => exact ⟨rfl, rfl⟩
    | cons c rest ih =>
      obtain ⟨ih1, ih2⟩ := ih
      by_cases h1 : c.net_total < MIN_NET_TOTAL
      · have he : isEligible c = false := by
          simp [isEligible, not_le.mpr h1]
        simp [filter_eligible_clients, filterMsgFor, h1, he, ih1, ih2]
      · by_cases h2 : c.net_available < c.net_total * CAPITAL_PERCENT_PER_OPERATION
        · have he : isEligible c = false := by
            simp [isEligible, not_le.mpr h2]
          simp [filter_eligible_clients, filterMsgFor, h1, h2, he, ih1, ih2]
        · have he : isEligible c = true := by
            simp [isEligible, not_lt.mp h1, not_lt.mp h2]
          simp [filter_eligible_clients, filterMsgFor, h1, h2, he, ih1, ih2]
  exact ⟨main.1, main.2, by rw [main.2, List.length_map]⟩

/-- C2: with a snapshot present, the overall verdict is true exactly when
the liquidity, stop-loss and risk/reward rules all pass; the position-size
rule only reports the maximum quantity and never gates the verdict. -/
theorem validate_trade_valid_iff (trade : TradeInput) (md : MarketData)
    (hentry : 0 < trade.entry_price) :
    ((validate_trade trade (some md)).valid = true ↔
      MIN_LIQUIDITY ≤ md.daily_liquidity ∧
      |trade.stop_loss - trade.entry_price| / trade.entry_price ≤ MAX_STOP_LOSS ∧
      MIN_RISK_REWARD ≤
        (if 0 < |trade.entry_price - trade.stop_loss| then
          |trade.target - trade.entry_price| / |trade.entry_price - trade.stop_loss|
         else 0)) ∧
    (validate_trade trade (some md)).stop_loss_percent =
      |trade.stop_loss - trade.entry_price| / trade.entry_price ∧
    (validate_trade trade (some md)).max_quantity =
      pytrunc (md.average_daily_volume * MAX_VOLUME_PERCENT) := by
  have habs : |(trade.stop_loss - trade.entry_price) / trade.entry_price| =
      |trade.stop_loss - trade.entry_price| / trade.entry_price := by
    rw [abs_div, abs_of_pos hentry]
  refine ⟨?_, ?_, ?_⟩
  · simp only [validate_trade, Bool.and_eq_true, Bool.not_eq_true',
      decide_eq_false_iff_not, not_lt, habs]
    constructor
    · rintro ⟨⟨a, b⟩, c⟩
      exact ⟨a, b, c⟩
    · rintro ⟨a, b, c⟩
      exact ⟨⟨a, b⟩, c⟩
  · simp [validate_trade, habs]
  · simp [validate_trade]

/-- Concrete trade for the C2 witness, the scenario of the spec: entry 20,
stop 19, target 21.50. -/
def tradeC2 : TradeInput :=
  { ticker := "PETR4", entry_price := 20, stop_loss := 19, target := 43/2 }

/-- Concrete snapshot for the C2 witness: liquidity 50,000,000, average
volume 2,000,000. -/
def mdC2 : MarketData :=
  { ticker := "PETR4", ticker_b3 := "PETR4.SA", current_price := 20
    average_daily_volume := 2000000, daily_liquidity := 50000000
    open_price := 20, high_price := 20, low_price := 20, change_percent := 0
    company_name := "Petrobras", sector := "Energy" }

/-- C2 witness: the rule-combination theorem instantiated at the spec's
approval scenario. -/
theorem validate_trade_valid_iff_witness :
    0 < tradeC2.entry_price ∧
    (((validate_trade tradeC2 (some mdC2)).valid = true ↔
      MIN_LIQUIDITY ≤ mdC2.daily_liquidity ∧
      |tradeC2.stop_loss - tradeC2.entry_price| / tradeC2.entry_price ≤ MAX_STOP_LOSS ∧
      MIN_RISK_REWARD ≤
        (if 0 < |tradeC2.entry_price - tradeC2.stop_loss| then
          |tradeC2.target - tradeC2.entry_price| / |tradeC2.entry_price - tradeC2.stop_loss|
         else 0)) ∧
    (validate_trade tradeC2 (some mdC2)).stop_loss_percent =
      |tradeC2.stop_loss - tradeC2.entry_price| / tradeC2.entry_price ∧
    (validate_trade tradeC2 (some mdC2)).max_quantity =
      pytrunc (mdC2.average_daily_volume * MAX_VOLUME_PERCENT)) :=
  ⟨by norm_num [tradeC2],
   validate_trade_valid_iff tradeC2 mdC2 (by norm_num [tradeC2])⟩

/-- Client with negative net available capital, for the C1 counterexample. -/
def clientC1A : Client :=
  { account_number := "A", equity_advisor := "", advisor := "", client_name := "a"
    strategy := "", net_total := 30000, net_available := -5
    average_operation_value := 0 }

/-- Client with negative net total capital, for the C1 counterexample. -/
def clientC1B : Client :=
  { account_number := "B", equity_advisor := "", advisor := "", client_name := "b"
    strategy := "", net_total := -1, net_available := 100
    average_operation_value := 0 }

/-- C1 counterexample: with a negative net available the clamped invested
amount (here 0) still exceeds it, and with a negative net total the
returned quantity is the truncation toward zero of the sized ratio, one
more than the floor the claim asserts. -/
theorem calculate_share_quantity_c1_cex :
    ¬ ((calculate_share_quantity clientC1A 20 100).2 ≤ clientC1A.net_available) ∧
    (calculate_share_quantity clientC1B (2/5) 10).1 ≠
      min ⌊clientC1B.net_total * CAPITAL_PERCENT_PER_OPERATION / (2/5 : ℚ)⌋ 10 := by
  constructor
  · norm_num [calculate_share_quantity, pytrunc, CAPITAL_PERCENT_PER_OPERATION,
      clientC1A, min_def]
  · norm_num [calculate_share_quantity, pytrunc, CAPITAL_PERCENT_PER_OPERATION,
      clientC1B, min_def]

/-- C1 (amended): for a client with nonnegative net total and net available
capital and a positive entry price, the allocation never invests more than
the net available, never exceeds the volume cap, and the returned pair is
the floor-division sizing, recomputed from the net available exactly when
the pre-clamp invested amount exceeds it. -/
theorem calculate_share_quantity_spec (client : Client) (e : ℚ) (maxQ : ℤ)
    (he : 0 < e) (ht : 0 ≤ client.net_total) (ha : 0 ≤ client.net_available) :
    (calculate_share_quantity client e maxQ).2 ≤ client.net_available ∧
    (calculate_share_quantity client e maxQ).1 ≤ maxQ ∧
    calculate_share_quantity client e maxQ =
      (if client.net_available <
          (↑(min ⌊client.net_total * CAPITAL_PERCENT_PER_OPERATION / e⌋ maxQ) : ℚ) * e
       then (⌊client.net_available / e⌋, (⌊client.net_available / e⌋ : ℚ) * e)
       else (min ⌊client.net_total * CAPITAL_PERCENT_PER_OPERATION / e⌋ maxQ,
             (↑(min ⌊client.net_total * CAPITAL_PERCENT_PER_OPERATION / e⌋ maxQ) : ℚ) * e)) := by
  have havail : (0:ℚ) ≤ client.net_total * CAPITAL_PERCENT_PER_OPERATION :=
    mul_nonneg ht (by norm_num [CAPITAL_PERCENT_PER_OPERATION])
  have h1 : pytrunc (client.net_total * CAPITAL_PERCENT_PER_OPERATION / e) =
      ⌊client.net_total * CAPITAL_PERCENT_PER_OPERATION / e⌋ :=
    pytrunc_of_nonneg (div_nonneg havail he.le)
  have h2 : pytrunc (client.net_available / e) = ⌊client.net_available / e⌋ :=
    pytrunc_of_nonneg (div_nonneg ha he.le)
  simp only [calculate_share_quantity, h1, h2]
  by_cases hc : client.net_available <
      (min (⌊client.net_total * CAPITAL_PERCENT_PER_OPERATION / e⌋ : ℚ) (maxQ : ℚ)) * e
  · have hfloorle : (⌊client.net_available / e⌋ : ℚ) * e ≤ client.net_available :=
      floor_div_mul_le _ he
    have hltmax : ⌊client.net_available / e⌋ ≤ maxQ := by
      have hdiv : client.net_available / e <
          min (⌊client.net_total * CAPITAL_PERCENT_PER_OPERATION / e⌋ : ℚ) (maxQ : ℚ) :=
        (div_lt_iff₀ he).mpr hc
      have hlt : client.net_available / e < (maxQ : ℚ) :=
        lt_of_lt_of_le hdiv (min_le_right _ _)
      exact (Int.floor_lt.mpr hlt).le
    simp [hc, hfloorle, hltmax]
  · have hinv : (min (⌊client.net_total * CAPITAL_PERCENT_PER_OPERATION / e⌋ : ℚ) (maxQ : ℚ)) * e ≤
        client.net_available := not_lt.mp hc
    simp [hc, hinv, min_le_right]

/-- Client for the C1 witness: the spec's allocation scenario. -/
def clientC1W : Client :=
  { account_number := "W", equity_advisor := "", advisor := "", client_name := "w"
    strategy := "", net_total := 20000, net_available := 10000
    average_operation_value := 0 }

/-- C1 witness: the amended allocation theorem instantiated at the spec's
scenario (net total 20000, net available 10000, entry 20, cap 20000). -/
theorem calculate_share_quantity_spec_witness :
    (0:ℚ) < 20 ∧ (0:ℚ) ≤ clientC1W.net_total ∧ (0:ℚ) ≤ clientC1W.net_available ∧
    ((calculate_share_quantity clientC1W 20 20000).2 ≤ clientC1W.net_available ∧
     (calculate_share_quantity clientC1W 20 20000).1 ≤ 20000 ∧
     calculate_share_quantity clientC1W 20 20000 =
       (if clientC1W.net_available <
           (↑(min ⌊clientC1W.net_total * CAPITAL_PERCENT_PER_OPERATION / 20⌋ 20000) : ℚ) * 20
        then (⌊clientC1W.net_available / 20⌋, (⌊clientC1W.net_available / 20⌋ : ℚ) * 20)
        else (min ⌊clientC1W.net_total * CAPITAL_PERCENT_PER_OPERATION / 20⌋ 20000,
              (↑(min ⌊clientC1W.net_total * CAPITAL_PERCENT_PER_OPERATION / 20⌋ 20000) : ℚ) * 20))) :=
  ⟨by norm_num, by norm_num [clientC1W], by norm_num [clientC1W],
   calculate_share_quantity_spec clientC1W 20 20000 (by norm_num)
     (by norm_num [clientC1W]) (by norm_num [clientC1W])⟩

/-- The pre-clamp quantity of `calculate_share_quantity`: the sizing off
half the net total, capped by the volume limit, before the safety check. -/
def preQuantity (client : Client) (e : ℚ) (maxQ : ℤ) : ℤ :=
  min (pytrunc (client.net_total * CAPITAL_PERCENT_PER_OPERATION / e)) maxQ

/-- The pre-clamp invested amount of `calculate_share_quantity`. -/
def preInvested (client : Client) (e : ℚ) (maxQ : ℤ) : ℚ :=
  (preQuantity client e maxQ : ℚ) * e

/-- Client meeting the availability condition with negative capital, for
the C10 counterexample. -/
def clientC10 : Client :=
  { account_number := "X", equity_advisor := "", advisor := "", client_name := "x"
    strategy := "", net_total := -2, net_available := -9/10
    average_operation_value := 0 }

/-- C10 counterexample: a client satisfying the quoted availability
condition (net available at least half the net total) whose pre-clamp
invested amount strictly exceeds the net available, so the safety clamp is
reached. -/
theorem preclamp_c10_cex :
    clientC10.net_total * CAPITAL_PERCENT_PER_OPERATION ≤ clientC10.net_available ∧
    (0:ℚ) < 2/5 ∧
    clientC10.net_available < preInvested clientC10 (2/5) 5 := by
  refine ⟨by norm_num [clientC10, CAPITAL_PERCENT_PER_OPERATION], by norm_num, ?_⟩
  norm_num [clientC10, preInvested, preQuantity, pytrunc,
    CAPITAL_PERCENT_PER_OPERATION, min_def]

/-- C10 (amended): for a client with nonnegative net total meeting the
availability condition, the safety clamp is unreachable: the pre-clamp
invested amount is at most the net available and the function returns the
pre-clamp pair unchanged. -/
theorem preclamp_unreachable (client : Client) (e : ℚ) (maxQ : ℤ)
    (he : 0 < e) (ht : 0 ≤ client.net_total)
    (helig : client.net_total * CAPITAL_PERCENT_PER_OPERATION ≤ client.net_available) :
    preInvested client e maxQ ≤ client.net_available ∧
    calculate_share_quantity client e maxQ =
      (preQuantity client e maxQ, preInvested client e maxQ) := by
  have havail : (0:ℚ) ≤ client.net_total * CAPITAL_PERCENT_PER_OPERATION :=
    mul_nonneg ht (by norm_num [CAPITAL_PERCENT_PER_OPERATION])
  have hq : preQuantity client e maxQ ≤
      ⌊client.net_total * CAPITAL_PERCENT_PER_OPERATION / e⌋ := by
    rw [preQuantity, pytrunc_of_nonneg (div_nonneg havail he.le)]
    exact min_le_left _ _
  have hinv : preInvested client e maxQ ≤ client.net_available := by
    have h1 : (preQuantity client e maxQ : ℚ) ≤
        (⌊client.net_total * CAPITAL_PERCENT_PER_OPERATION / e⌋ : ℚ) := by
      exact_mod_cast hq
    calc preInvested client e maxQ
        ≤ (⌊client.net_total * CAPITAL_PERCENT_PER_OPERATION / e⌋ : ℚ) * e :=
          mul_le_mul_of_nonneg_right h1 he.le
      _ ≤ client.net_total * CAPITAL_PERCENT_PER_OPERATION := floor_div_mul_le _ he
      _ ≤ client.net_available := helig
  have hcond : ¬ (client.net_available <
      (↑(min (pytrunc (client.net_total * CAPITAL_PERCENT_PER_OPERATION / e)) maxQ) : ℚ) * e) := by
    rw [not_lt]
    simpa [preInvested, preQuantity] using hinv
  refine ⟨hinv, ?_⟩
  simp only [calculate_share_quantity]
  rw [if_neg hcond]
  simp [preInvested, preQuantity]

/-- Client for the C10 witness. -/
def clientC10W : Client :=
  { account_number := "Y", equity_advisor := "", advisor := "", client_name := "y"
    strategy := "", net_total := 20000, net_available := 10000
    average_operation_value := 0 }

/-- C10 witness: the amended clamp-unreachability theorem instantiated at
an eligible client. -/
theorem preclamp_unreachable_witness :
    (0:ℚ) < 20 ∧ (0:ℚ) ≤ clientC10W.net_total ∧
    clientC10W.net_total * CAPITAL_PERCENT_PER_OPERATION ≤ clientC10W.net_available ∧
    (preInvested clientC10W 20 20000 ≤ clientC10W.net_available ∧
     calculate_share_quantity clientC10W 20 20000 =
       (preQuantity clientC10W 20 20000, preInvested clientC10W 20 20000)) :=
  ⟨by norm_num, by norm_num [clientC10W],
   by norm_num [clientC10W, CAPITAL_PERCENT_PER_OPERATION],
   preclamp_unreachable clientC10W 20 20000 (by norm_num) (by norm_num [clientC10W])
     (by norm_num [clientC10W, CAPITAL_PERCENT_PER_OPERATION])⟩

theorem calculate_share_quantity_fst_nonneg (client : Client) (e : ℚ) (maxQ : ℤ)
    (he : 0 < e) (ht : 0 ≤ client.net_total) (ha : 0 ≤ client.net_available)
    (hm : 0 ≤ maxQ) : 0 ≤ (calculate_share_quantity client e maxQ).1 := by
  have havail : (0:ℚ) ≤ client.net_total * CAPITAL_PERCENT_PER_OPERATION :=
    mul_nonneg ht (by norm_num [CAPITAL_PERCENT_PER_OPERATION])
  simp only [calculate_share_quantity]
  split
  · exact pytrunc_nonneg (div_nonneg ha he.le)
  · exact le_min (pytrunc_nonneg (div_nonneg havail he.le)) hm

/-- C4: with every listed client eligible, a positive entry price and a
nonnegative volume cap (the validator's cap is a truncated nonnegative
product), every order emitted by `generate_basket` has strictly positive
quantity: zero-quantity allocations are skipped, and no other branch can
produce a nonpositive one. -/
theorem generate_basket_quantity_pos (trade : TradeInput) (clients : List Client)
    (validation : TechnicalValidation) (hentry : 0 < trade.entry_price)
    (hmax : 0 ≤ validation.max_quantity)
    (helig : ∀ c ∈ clients, isEligible c = true) :
    ∀ o ∈ generate_basket trade clients validation, 0 < o.quantity := by
  revert helig
  induction clients with
  | nil =>
    intro _ o ho
    simp [generate_basket] at ho
  | cons c rest ih =>
    intro helig o ho
    have hc : isEligible c = true := helig c (List.mem_cons_self c rest)
    have hrest : ∀ x ∈ rest, isEligible x = true := fun x hx =>
      helig x (List.mem_cons_of_mem _ hx)
    simp only [isEligible, Bool.and_eq_true, decide_eq_true_eq] at hc
    have ht : (0:ℚ) ≤ c.net_total :=
      le_trans (by norm_num [MIN_NET_TOTAL]) hc.1
    have ha : (0:ℚ) ≤ c.net_available :=
      le_trans (mul_nonneg ht (by norm_num [CAPITAL_PERCENT_PER_OPERATION])) hc.2
    have hq0 : 0 ≤ (calculate_share_quantity c trade.entry_price validation.max_quantity).1 :=
      calculate_share_quantity_fst_nonneg c trade.entry_price validation.max_quantity
        hentry ht ha hmax
    simp only [generate_basket] at ho
    by_cases hz : (calculate_share_quantity c trade.entry_price validation.max_quantity).1 = 0
    · rw [if_pos hz] at ho
      exact ih hrest o ho
    · rw [if_neg hz] at ho
      rcases List.mem_cons.mp ho with rfl | h
      · exact lt_of_le_of_ne hq0 (Ne.symm hz)
      · exact ih hrest o h

/-- Trade for the C4 witness. -/
def tradeC4 : TradeInput :=
  { ticker := "PETR4", entry_price := 20, stop_loss := 19, target := 43/2 }

/-- Eligible client for the C4 witness. -/
def clientC4 : Client :=
  { account_number := "Z", equity_advisor := "", advisor := "", client_name := "z"
    strategy := "", net_total := 20000, net_available := 10000
    average_operation_value := 0 }

/-- Validation for the C4 witness. -/
def validationC4 : TechnicalValidation :=
  { valid := true, daily_liquidity := 50000000, stop_loss_percent := 1/20
    risk_reward_ratio := 3/2, max_quantity := 20000, messages := [] }

/-- C4 witness: the basket-positivity theorem instantiated at one eligible
client. -/
theorem generate_basket_quantity_pos_witness :
    0 < tradeC4.entry_price ∧ 0 ≤ validationC4.max_quantity ∧
    (∀ c ∈ [clientC4], isEligible c = true) ∧
    ∀ o ∈ generate_basket tradeC4 [clientC4] validationC4, 0 < o.quantity :=
  ⟨by norm_num [tradeC4], by norm_num [validationC4],
   by
     intro c hcm
     rw [List.mem_singleton] at hcm
     subst hcm
     simp only [isEligible, Bool.and_eq_true, decide_eq_true_eq]
     norm_num [clientC4, MIN_NET_TOTAL, CAPITAL_PERCENT_PER_OPERATION],
   generate_basket_quantity_pos tradeC4 [clientC4] validationC4
     (by norm_num [tradeC4]) (by norm_num [validationC4])
     (by
       intro c hcm
       rw [List.mem_singleton] at hcm
       subst hcm
       simp only [isEligible, Bool.and_eq_true, decide_eq_true_eq]
       norm_num [clientC4, MIN_NET_TOTAL, CAPITAL_PERCENT_PER_OPERATION])⟩

theorem sum_filter_ne_zero (l : List ℚ) : (l.filter (fun a => a ≠ 0)).sum = l.sum := by
  induction l with
  | nil => rfl
  | cons a t ih =>
    rw [List.filter_cons]
    by_cases h : a = 0
    · rw [if_neg (by simp [h])]
      rw [ih, List.sum_cons, h, zero_add]
    · rw [if_pos (by simp [h])]
      rw [List.sum_cons, List.sum_cons, ih]

theorem foldl_min_mem (a : ℚ) (l : List ℚ) : l.foldl min a ∈ a :: l := by
  induction l generalizing a with
  | nil => simp
  | cons b t ih =>
    simp only [List.foldl_cons]
    rcases List.mem_cons.mp (ih (min a b)) with h1 | h1
    · rw [h1]
      rcases min_choice a b with hm | hm <;> rw [hm]
      · exact List.mem_cons_self _ _
      · exact List.mem_cons_of_mem _ (List.mem_cons_self _ _)
    · exact List.mem_cons_of_mem _ (List.mem_cons_of_mem _ h1)

theorem foldl_min_le (a : ℚ) (l : List ℚ) : ∀ x ∈ a :: l, l.foldl min a ≤ x := by
  induction l generalizing a with
  | nil =>
    intro x hx
    rw [List.mem_singleton] at hx
    subst hx
    exact le_refl _
  | cons b t ih =>
    intro x hx
    simp only [List.foldl_cons]
    have hbase : t.foldl min (min a b) ≤ min a b :=
      ih (min a b) (min a b) (List.mem_cons_self _ _)
    rcases List.mem_cons.mp hx with rfl | hx'
    · exact le_trans hbase (min_le_left _ _)
    · rcases List.mem_cons.mp hx' with rfl | hx''
      · exact le_trans hbase (min_le_right _ _)
      · exact ih (min a b) x (List.mem_cons_of_mem _ hx'')

theorem foldl_max_mem (a : ℚ) (l : List ℚ) : l.foldl max a ∈ a :: l := by
  induction l generalizing a with
  | nil => simp
  | cons b t ih =>
    simp only [List.foldl_cons]
    rcases List.mem_cons.mp (ih (max a b)) with h1 | h1
    · rw [h1]
      rcases max_choice a b with hm | hm <;> rw [hm]
      · exact List.mem_cons_self _ _
      · exact List.mem_cons_of_mem _ (List.mem_cons_self _ _)
    · exact List.mem_cons_of_mem _ (List.mem_cons_of_mem _ h1)

theorem le_foldl_max (a : ℚ) (l : List ℚ) : ∀ x ∈ a :: l, x ≤ l.foldl max a := by
  induction l generalizing a with
  | nil =>
    intro x hx
    rw [List.mem_singleton] at hx
    subst hx
    exact le_refl _
  | cons b t ih =>
    intro x hx
    simp only [List.foldl_cons]
    have hbase : max a b ≤ t.foldl max (max a b) :=
      ih (max a b) (max a b) (List.mem_cons_self _ _)
    rcases List.mem_cons.mp hx with rfl | hx'
    · exact le_trans (le_max_left _ _) hbase
    · rcases List.mem_cons.mp hx' with rfl | hx''
      · exact le_trans (le_max_right _ _) hbase
      · exact ih (max a b) x (List.mem_cons_of_mem _ hx'')

/-- Order with no invested amount, for the C6 counterexample. -/
def orderC6 : ClientOrder :=
  { account_number := "1", ticker := "PETR4", quantity := 100
    price_type := "l", limit_price := 20 }

/-- C6 counterexample: a nonempty order list whose only invested amount is
absent makes `calculate_summary` divide by `len(amounts) = 0` (and call
`min` on an empty list), modelled `none`: the claimed aggregates are not
returned. -/
theorem calculate_summary_c6_cex :
    ([orderC6] : List ClientOrder) ≠ [] ∧ calculate_summary [orderC6] = none :=
  ⟨by simp, rfl⟩

/-- C6 (amended): the empty list yields all-zero aggregates; a nonempty
list containing at least one present and nonzero invested amount yields the
count, the share sum, the invested-amount sum, and average/min/max over the
present nonzero amounts. -/
theorem calculate_summary_spec (orders : List ClientOrder) (hne : orders ≠ [])
    (hamt : truthyAmounts orders ≠ []) :
    calculate_summary ([] : List ClientOrder) =
      some { total_orders := 0, total_shares := 0, total_invested := 0
             average_investment := 0, min_investment := 0, max_investment := 0 } ∧
    ∃ s, calculate_summary orders = some s ∧
      s.total_orders = orders.length ∧
      s.total_shares = (orders.map ClientOrder.quantity).sum ∧
      s.total_invested = (orders.filterMap ClientOrder.invested_amount).sum ∧
      s.average_investment =
        (orders.filterMap ClientOrder.invested_amount).sum /
          ((truthyAmounts orders).length : ℚ) ∧
      s.min_investment ∈ truthyAmounts orders ∧
      (∀ x ∈ truthyAmounts orders, s.min_investment ≤ x) ∧
      s.max_investment ∈ truthyAmounts orders ∧
      (∀ x ∈ truthyAmounts orders, x ≤ s.max_investment) := by
  obtain ⟨a, rest, hr⟩ := List.exists_cons_of_ne_nil hamt
  have hsum : (a :: rest).sum = (orders.filterMap ClientOrder.invested_amount).sum := by
    rw [← hr, truthyAmounts, sum_filter_ne_zero]
  have hcs : calculate_summary orders = some
      { total_orders := orders.length
        total_shares := (orders.map ClientOrder.quantity).sum
        total_invested := (a :: rest).sum
        average_investment := (a :: rest).sum / ((a :: rest).length : ℚ)
        min_investment := rest.foldl min a
        max_investment := rest.foldl max a } := by
    unfold calculate_summary
    rw [if_neg (by simp [hne]), hr]
  refine ⟨rfl, ⟨_, hcs, rfl, rfl, hsum, ?_, ?_, ?_, ?_, ?_⟩⟩
  · show (a :: rest).sum / ((a :: rest).length : ℚ) = _
    rw [hsum, hr]
  · show rest.foldl min a ∈ truthyAmounts orders
    rw [hr]
    exact foldl_min_mem a rest
  · intro x hx
    rw [hr] at hx
    exact foldl_min_le a rest x hx
  · show rest.foldl max a ∈ truthyAmounts orders
    rw [hr]
    exact foldl_max_mem a rest
  · intro x hx
    rw [hr] at hx
    exact le_foldl_max a rest x hx

/-- Order with a present invested amount, for the C6 witness. -/
def orderC6A : ClientOrder :=
  { account_number := "1", ticker := "PETR4", quantity := 500
    price_type := "l", limit_price := 20, invested_amount := some 10000 }

/-- Second order with a present invested amount, for the C6 witness. -/
def orderC6B : ClientOrder :=
  { account_number := "2", ticker := "PETR4", quantity := 200
    price_type := "l", limit_price := 20, invested_amount := some 4000 }

/-- C6 witness: the amended summary theorem instantiated at a two-order
list with present invested amounts. -/
theorem calculate_summary_spec_witness :
    ([orderC6A, orderC6B] : List ClientOrder) ≠ [] ∧
    truthyAmounts [orderC6A, orderC6B] ≠ [] ∧
    (calculate_summary ([] : List ClientOrder) =
      some { total_orders := 0, total_shares := 0, total_invested := 0
             average_investment := 0, min_investment := 0, max_investment := 0 } ∧
    ∃ s, calculate_summary [orderC6A, orderC6B] = some s ∧
      s.total_orders = ([orderC6A, orderC6B] : List ClientOrder).length ∧
      s.total_shares = (([orderC6A, orderC6B] : List ClientOrder).map ClientOrder.quantity).sum ∧
      s.total_invested =
        (([orderC6A, orderC6B] : List ClientOrder).filterMap ClientOrder.invested_amount).sum ∧
      s.average_investment =
        (([orderC6A, orderC6B] : List ClientOrder).filterMap ClientOrder.invested_amount).sum /
          ((truthyAmounts [orderC6A, orderC6B]).length : ℚ) ∧
      s.min_investment ∈ truthyAmounts [orderC6A, orderC6B] ∧
      (∀ x ∈ truthyAmounts [orderC6A, orderC6B], s.min_investment ≤ x) ∧
      s.max_investment ∈ truthyAmounts [orderC6A, orderC6B] ∧
      (∀ x ∈ truthyAmounts [orderC6A, orderC6B], x ≤ s.max_investment)) :=
  ⟨by simp,
   by
     norm_num [truthyAmounts, orderC6A, orderC6B, List.filter]
     exact List.cons_ne_nil _ _,
   calculate_summary_spec [orderC6A, orderC6B] (by simp)
     (by
       norm_num [truthyAmounts, orderC6A, orderC6B, List.filter]
       exact List.cons_ne_nil _ _)⟩

/-- C7: generating a spreadsheet from an empty order list fails with the
invalid-input error and produces no file; from a nonempty list it produces
the 16 mandated columns in their fixed order, one row per order, with each
of the seven optional/trigger columns written as the empty string whenever
the corresponding field is unset. -/
theorem generate_excel_spec (orders : List ClientOrder) (ticker : String)
    (now : PyDateTime) (hne : orders ≠ []) :
    generate_excel [] ticker now =
      Except.error "Cannot generate Excel: no orders provided" ∧
    COLUMNS.length = 16 ∧
    (∃ f, generate_excel orders ticker now = Except.ok f ∧
      f.header = COLUMNS ∧ f.rows = orders.map order_to_row ∧
      f.rows.length = orders.length) ∧
    (∀ o : ClientOrder, (order_to_row o).length = 16) ∧
    (∀ o : ClientOrder,
      (o.apparent_quantity = "" → (order_to_row o)[7]? = some (Cell.s "")) ∧
      (o.minimum_quantity = "" → (order_to_row o)[8]? = some (Cell.s "")) ∧
      (o.trigger_type = "" → (order_to_row o)[11]? = some (Cell.s "")) ∧
      (o.upper_trigger_price = "" → (order_to_row o)[12]? = some (Cell.s "")) ∧
      (o.upper_limit_price = "" → (order_to_row o)[13]? = some (Cell.s "")) ∧
      (o.lower_trigger_price = "" → (order_to_row o)[14]? = some (Cell.s "")) ∧
      (o.lower_limit_price = "" → (order_to_row o)[15]? = some (Cell.s ""))) := by
  refine ⟨rfl, rfl, ?_, ?_, ?_⟩
  · refine ⟨{ filename := "basket_" ++ ticker ++ "_" ++ strftimeYmdHMS now ++ ".xlsx"
              header := COLUMNS
              rows := orders.map order_to_row }, ?_, rfl, rfl, List.length_map _ _⟩
    unfold generate_excel
    rw [if_neg (by simp [hne])]
  · intro o
    rfl
  · intro o
    refine ⟨?_, ?_, ?_, ?_, ?_, ?_, ?_⟩ <;> intro h <;> simp [order_to_row, h]

/-- Order with all optional fields unset, for the C7 witness. -/
def orderC7 : ClientOrder :=
  { account_number := "1", ticker := "PETR4", quantity := 500
    price_type := "l", limit_price := 20 }

/-- Time value for the C7 witness. -/
def dtC7 : PyDateTime := { year := 2026, month := 1, day := 2
                           hour := 3, minute := 4, second := 5 }

/-- C7 witness: the spreadsheet theorem instantiated at a one-order list. -/
theorem generate_excel_spec_witness :
    ([orderC7] : List ClientOrder) ≠ [] ∧
    (generate_excel [] "PETR4" dtC7 =
      Except.error "Cannot generate Excel: no orders provided" ∧
    COLUMNS.length = 16 ∧
    (∃ f, generate_excel [orderC7] "PETR4" dtC7 = Except.ok f ∧
      f.header = COLUMNS ∧ f.rows = ([orderC7] : List ClientOrder).map order_to_row ∧
      f.rows.length = ([orderC7] : List ClientOrder).length) ∧
    (∀ o : ClientOrder, (order_to_row o).length = 16) ∧
    (∀ o : ClientOrder,
      (o.apparent_quantity = "" → (order_to_row o)[7]? = some (Cell.s "")) ∧
      (o.minimum_quantity = "" → (order_to_row o)[8]? = some (Cell.s "")) ∧
      (o.trigger_type = "" → (order_to_row o)[11]? = some (Cell.s "")) ∧
      (o.upper_trigger_price = "" → (order_to_row o)[12]? = some (Cell.s "")) ∧
      (o.upper_limit_price = "" → (order_to_row o)[13]? = some (Cell.s "")) ∧
      (o.lower_trigger_price = "" → (order_to_row o)[14]? = some (Cell.s "")) ∧
      (o.lower_limit_price = "" → (order_to_row o)[15]? = some (Cell.s "")))) :=
  ⟨by simp, generate_excel_spec [orderC7] "PETR4" dtC7 (by simp)⟩

theorem data_mk (l : List Char) : (String.mk l).data = l := rfl

theorem digitChar_bounded_inj : ∀ x < 10, ∀ y < 10,
    digitChar x = digitChar y → x = y := by decide

theorem digitChar_eq_iff {a b : ℕ} : digitChar a = digitChar b ↔ a % 10 = b % 10 := by
  constructor
  · intro h
    have ha : a % 10 < 10 := Nat.mod_lt _ (by norm_num)
    have hb : b % 10 < 10 := Nat.mod_lt _ (by norm_num)
    have e1 : digitChar (a % 10) = digitChar a := by
      unfold digitChar
      congr 1
      omega
    have e2 : digitChar (b % 10) = digitChar b := by
      unfold digitChar
      congr 1
      omega
    exact digitChar_bounded_inj _ ha _ hb (by rw [e1, e2, h])
  · intro h
    unfold digitChar
    rw [h]

theorem digitChar_isDigit (n : ℕ) : (digitChar n).isDigit = true := by
  have h : n % 10 < 10 := Nat.mod_lt _ (by norm_num)
  unfold digitChar
  generalize hk : n % 10 = k at h ⊢
  interval_cases k <;> decide

theorem strftimeYmdHMS_inj {t1 t2 : PyDateTime}
    (r1 : t1.year < 10000) (r2 : t1.month < 100) (r3 : t1.day < 100)
    (r4 : t1.hour < 100) (r5 : t1.minute < 100) (r6 : t1.second < 100)
    (q1 : t2.year < 10000) (q2 : t2.month < 100) (q3 : t2.day < 100)
    (q4 : t2.hour < 100) (q5 : t2.minute < 100) (q6 : t2.second < 100)
    (h : strftimeYmdHMS t1 = strftimeYmdHMS t2) : t1 = t2 := by
  cases t1 with
  | mk y1 mo1 d1 hh1 mi1 s1 =>
  cases t2 with
  | mk y2 mo2 d2 hh2 mi2 s2 =>
  have hd := congrArg String.data h
  simp only [strftimeYmdHMS, data_mk, List.cons.injEq, and_true] at hd
  simp only [digitChar_eq_iff] at hd
  simp only [PyDateTime.mk.injEq]
  simp only [PyDateTime.year, PyDateTime.month, PyDateTime.day, PyDateTime.hour,
    PyDateTime.minute, PyDateTime.second] at *
  obtain ⟨e1, e2, e3, e4, e5, e6, e7, e8, e9, e10, e11, e12, e13, e14⟩ := hd
  refine ⟨?_, ?_, ?_, ?_, ?_, ?_⟩ <;> omega

/-- The file-name pattern asserted by the claim: the literal prefix, the
ticker, an underscore, fourteen contiguous digits, and the extension. -/
def matchesClaimedC8Pattern (ticker fname : String) : Prop :=
  ∃ ds : List Char, ds.length = 14 ∧ (∀ c ∈ ds, c.isDigit = true) ∧
    fname = "basket_" ++ ticker ++ "_" ++ String.mk ds ++ ".xlsx"

/-- Order for the C8 counterexample. -/
def orderC8 : ClientOrder :=
  { account_number := "1", ticker := "PETR4", quantity := 500
    price_type := "l", limit_price := 20 }

/-- C8 counterexample: the generated name contains `YYYYMMDD_HHMMSS` — an
underscore between date and time, fifteen characters — so it never matches
the claimed fourteen-digit `YYYYMMDDHHMMSS` pattern (the lengths differ). -/
theorem generate_excel_filename_c8_cex :
    ∃ f, generate_excel [orderC8] "PETR4" ⟨2026, 1, 2, 3, 4, 5⟩ = Except.ok f ∧
      f.filename = "basket_PETR4_20260102_030405.xlsx" ∧
      ¬ matchesClaimedC8Pattern "PETR4" f.filename := by
  refine ⟨_, rfl, rfl, ?_⟩
  rintro ⟨ds, hlen, _, heq⟩
  have heq2 : ("basket_PETR4_20260102_030405.xlsx" : String) =
      "basket_" ++ "PETR4" ++ "_" ++ String.mk ds ++ ".xlsx" := heq
  have hl := congrArg String.length heq2
  have e5 : (String.mk ds).length = ds.length := rfl
  rw [String.length_append, String.length_append, String.length_append,
    String.length_append, e5, hlen] at hl
  exact absurd hl (by decide)

/-- C8 (amended): the generated file name is
`basket_{ticker}_{YYYYMMDD_HHMMSS}.xlsx` — eight date digits, an
underscore, six time digits — and within strftime's printable field ranges
two distinct generation times give distinct file names for the same
ticker. -/
theorem generate_excel_filename_spec (orders : List ClientOrder)
    (ticker : String) (t : PyDateTime) (hne : orders ≠ [])
    (r1 : t.year < 10000) (r2 : t.month < 100) (r3 : t.day < 100)
    (r4 : t.hour < 100) (r5 : t.minute < 100) (r6 : t.second < 100) :
    ∃ f, generate_excel orders ticker t = Except.ok f ∧
      f.filename = "basket_" ++ ticker ++ "_" ++ strftimeYmdHMS t ++ ".xlsx" ∧
      (∃ s1 s2 : String, strftimeYmdHMS t = s1 ++ "_" ++ s2 ∧
        s1.length = 8 ∧ s2.length = 6 ∧
        (∀ c ∈ s1.data, c.isDigit = true) ∧ (∀ c ∈ s2.data, c.isDigit = true)) ∧
      (∀ t' : PyDateTime, t'.year < 10000 → t'.month < 100 → t'.day < 100 →
        t'.hour < 100 → t'.minute < 100 → t'.second < 100 → t ≠ t' →
        ∀ f', generate_excel orders ticker t' = Except.ok f' →
          f.filename ≠ f'.filename) := by
  have hok : ∀ u : PyDateTime, generate_excel orders ticker u = Except.ok
      { filename := "basket_" ++ ticker ++ "_" ++ strftimeYmdHMS u ++ ".xlsx"
        header := COLUMNS
        rows := orders.map order_to_row } := by
    intro u
    unfold generate_excel
    rw [if_neg (by simp [hne])]
  refine ⟨_, hok t, rfl, ?_, ?_⟩
  · refine ⟨String.mk [digitChar (t.year / 1000), digitChar (t.year / 100),
      digitChar (t.year / 10), digitChar t.year, digitChar (t.month / 10),
      digitChar t.month, digitChar (t.day / 10), digitChar t.day],
      String.mk [digitChar (t.hour / 10), digitChar t.hour,
      digitChar (t.minute / 10), digitChar t.minute,
      digitChar (t.second / 10), digitChar t.second], rfl, rfl, rfl, ?_, ?_⟩
    · intro c hc
      simp only [List.mem_cons, List.not_mem_nil, or_false] at hc
      rcases hc with rfl | rfl | rfl | rfl | rfl | rfl | rfl | rfl <;>
        exact digitChar_isDigit _
    · intro c hc
      simp only [List.mem_cons, List.not_mem_nil, or_false] at hc
      rcases hc with rfl | rfl | rfl | rfl | rfl | rfl <;>
        exact digitChar_isDigit _
  · intro t' q1 q2 q3 q4 q5 q6 hneq f' hf'
    rw [hok t'] at hf'
    have hf'2 : f'.filename = "basket_" ++ ticker ++ "_" ++ strftimeYmdHMS t' ++ ".xlsx" := by
      cases hf'
      rfl
    rw [hf'2]
    intro heq
    apply hneq
    apply strftimeYmdHMS_inj r1 r2 r3 r4 r5 r6 q1 q2 q3 q4 q5 q6
    apply String.ext
    have hdata := congrArg String.data heq
    simp only [String.data_append, List.append_assoc] at hdata
    have h1 := List.append_cancel_left hdata
    have h2 := List.append_cancel_left h1
    have h3 := List.append_cancel_left h2
    exact List.append_cancel_right h3

/-- Time value for the C8 witness. -/
def dtC8 : PyDateTime := { year := 2026, month := 1, day := 2
                           hour := 3, minute := 4, second := 5 }

/-- C8 witness: the amended file-name theorem instantiated at a one-order
list and a concrete generation time. -/
theorem generate_excel_filename_spec_witness :
    ([orderC8] : List ClientOrder) ≠ [] ∧
    dtC8.year < 10000 ∧ dtC8.month < 100 ∧ dtC8.day < 100 ∧
    dtC8.hour < 100 ∧ dtC8.minute < 100 ∧ dtC8.second < 100 ∧
    (∃ f, generate_excel [orderC8] "PETR4" dtC8 = Except.ok f ∧
      f.filename = "basket_" ++ "PETR4" ++ "_" ++ strftimeYmdHMS dtC8 ++ ".xlsx" ∧
      (∃ s1 s2 : String, strftimeYmdHMS dtC8 = s1 ++ "_" ++ s2 ∧
        s1.length = 8 ∧ s2.length = 6 ∧
        (∀ c ∈ s1.data, c.isDigit = true) ∧ (∀ c ∈ s2.data, c.isDigit = true)) ∧
      (∀ t' : PyDateTime, t'.year < 10000 → t'.month < 100 → t'.day < 100 →
        t'.hour < 100 → t'.minute < 100 → t'.second < 100 → dtC8 ≠ t' →
        ∀ f', generate_excel [orderC8] "PETR4" t' = Except.ok f' →
          f.filename ≠ f'.filename)) :=
  ⟨by simp, by norm_num [dtC8], by norm_num [dtC8], by norm_num [dtC8],
   by norm_num [dtC8], by norm_num [dtC8], by norm_num [dtC8],
   generate_excel_filename_spec [orderC8] "PETR4" dtC8 (by simp)
     (by norm_num [dtC8]) (by norm_num [dtC8]) (by norm_num [dtC8])
     (by norm_num [dtC8]) (by norm_num [dtC8]) (by norm_num [dtC8])⟩

/-- The suffix test of the claimed normalization: whether the ticker
already ends with the exchange suffix. -/
def endsWithSA (ticker : String) : Bool := ".SA".data.isSuffixOf ticker.data

/-- C9 counterexample: the ticker A.SAB does not end with the exchange
suffix, yet the fetch leaves it unchanged, because the code tests for
`.SA` as an inner substring of the uppercased ticker rather than as a
suffix; the suffix is absent yet not appended. -/
theorem normalize_ticker_c9_cex :
    endsWithSA "A.SAB" = false ∧
    normalize_ticker "A.SAB" = "A.SAB" ∧
    normalize_ticker "A.SAB" ≠ "A.SAB" ++ ".SA" := by
  decide

/-- C9 (amended): the fetch appends `.SA` exactly when `.SA` does not
occur in the uppercased ticker; a cache hit on the normalized key returns
the cached snapshot unconditionally with the cache unchanged; a cache miss
with no provider data caches nothing; a cache miss with data computes the
snapshot, returns it, and stores it keyed by the normalized ticker, where a
subsequent lookup finds it. -/
theorem get_ticker_data_spec (cache : Cache) (ticker : String) (hist : List Bar)
    (longName sector : Option String) :
    (hasSubstr ".SA".data (pyUpper ticker).data = true →
      normalize_ticker ticker = ticker) ∧
    (hasSubstr ".SA".data (pyUpper ticker).data = false →
      normalize_ticker ticker = ticker ++ ".SA") ∧
    (∀ d, cache.lookup (normalize_ticker ticker) = some d →
      get_ticker_data cache ticker hist longName sector = (some d, cache)) ∧
    (cache.lookup (normalize_ticker ticker) = none → hist = [] →
      get_ticker_data cache ticker hist longName sector = (none, cache)) ∧
    (cache.lookup (normalize_ticker ticker) = none → hist ≠ [] →
      get_ticker_data cache ticker hist longName sector =
        (some (computeMarketData ticker (normalize_ticker ticker) hist longName sector),
         (normalize_ticker ticker,
          computeMarketData ticker (normalize_ticker ticker) hist longName sector) :: cache) ∧
      ((normalize_ticker ticker,
        computeMarketData ticker (normalize_ticker ticker) hist longName sector) ::
          cache).lookup (normalize_ticker ticker) =
        some (computeMarketData ticker (normalize_ticker ticker) hist longName sector)) := by
  refine ⟨?_, ?_, ?_, ?_, ?_⟩
  · intro h
    rw [normalize_ticker, if_pos h]
  · intro h
    rw [normalize_ticker, if_neg (by simp [h])]
  · intro d hd
    simp only [get_ticker_data]
    rw [hd]
  · intro hnone hemp
    subst hemp
    simp only [get_ticker_data]
    rw [hnone]
    rfl
  · intro hnone hne
    refine ⟨?_, by simp [List.lookup]⟩
    simp only [get_ticker_data]
    rw [hnone, if_neg (by simp [hne])]

/-- History row for the C9 witness. -/
def barC9 : Bar :=
  { openPrice := 10, highPrice := 11, lowPrice := 9, closePrice := 10, volume := 1000 }

/-- C9 witness: the amended gateway theorem instantiated at an empty cache
and a one-row history: the suffix is appended, the snapshot is computed and
stored under the normalized key. -/
theorem get_ticker_data_spec_witness :
    hasSubstr ".SA".data (pyUpper "PETR4").data = false ∧
    (([] : Cache).lookup (normalize_ticker "PETR4") = none) ∧
    ([barC9] : List Bar) ≠ [] ∧
    normalize_ticker "PETR4" = "PETR4" ++ ".SA" ∧
    get_ticker_data [] "PETR4" [barC9] none none =
      (some (computeMarketData "PETR4" (normalize_ticker "PETR4") [barC9] none none),
       [(normalize_ticker "PETR4",
         computeMarketData "PETR4" (normalize_ticker "PETR4") [barC9] none none)]) :=
  ⟨by decide, rfl, by simp,
   (get_ticker_data_spec [] "PETR4" [barC9] none none).2.1 (by decide),
   ((get_ticker_data_spec [] "PETR4" [barC9] none none).2.2.2.2 rfl (by simp)).1⟩

end SwingTrade
